import Mathlib

/-!
Verification development for the pw-duck voice-ducking program.

The definitions below are a shallow embedding of the Rust sources:
volumes and energies (`f32` in the code) are modelled as exact rationals,
timestamps (`Instant`, compared at millisecond granularity via
`duration_since(..).as_millis()`) as natural numbers of milliseconds, and
the external `wpctl set-volume` calls as emitted `(id, volume)` command
lists.
-/

namespace PwDuck

/-- Control mode, from `main.rs` (`enum ControlMode`). -/
inductive ControlMode
  | AutoVad
  | ManualDucked
  | ManualRestored
deriving DecidableEq, Repr

/-- Rust `f32::clamp(lo, hi)` on rationals (for `lo ≤ hi`): values below
`lo` go to `lo`, values above `hi` go to `hi`. -/
def clampQ (x lo hi : ℚ) : ℚ := max lo (min x hi)

/-- Association-list view of the `HashMap<u32, f32>` baseline table:
lookup of the value stored for a key. -/
def lookupBL : List (Nat × ℚ) → Nat → Option ℚ
  | [], _ => none
  | (k, v) :: rest, id => if k = id then some v else lookupBL rest id

/-- `HashMap::remove`: drop every entry for the key. -/
def eraseBL : List (Nat × ℚ) → Nat → List (Nat × ℚ)
  | [], _ => []
  | (k, v) :: rest, id =>
    if k = id then eraseBL rest id else (k, v) :: eraseBL rest id

/-- `HashMap::insert`: the key now maps to the new value. -/
def insertBL (l : List (Nat × ℚ)) (id : Nat) (v : ℚ) : List (Nat × ℚ) :=
  (id, v) :: eraseBL l id

/-- State of the ducking controller, from `ducking.rs`
(`struct RestoreGuard`). -/
structure RestoreGuard where
  baselines : List (Nat × ℚ)
  ids : List Nat
  voice_id : Option Nat
  ducked : Bool
  gui_enabled : Bool
deriving DecidableEq, Repr

/-- `RestoreGuard::new`: clone the baseline map, collect its keys minus
the voice id, sorted (`sort_unstable`). -/
def RestoreGuard.new (baselines : List (Nat × ℚ)) (voice_id : Option Nat)
    (gui_enabled : Bool) : RestoreGuard :=
  { baselines := baselines
    ids := ((baselines.map Prod.fst).filter fun id => some id != voice_id).mergeSort (· ≤ ·)
    voice_id := voice_id
    ducked := false
    gui_enabled := gui_enabled }

/-- `RestoreGuard::add_stream`. -/
def RestoreGuard.add_stream (g : RestoreGuard) (id : Nat) (baseline : ℚ) :
    RestoreGuard :=
  if g.voice_id = some id then g
  else
    { g with
      baselines := insertBL g.baselines id baseline
      ids := if g.ids.contains id then g.ids else g.ids ++ [id] }

/-- `RestoreGuard::remove_stream`. -/
def RestoreGuard.remove_stream (g : RestoreGuard) (id : Nat) : RestoreGuard :=
  { g with
    baselines := eraseBL g.baselines id
    ids := g.ids.filter fun v => v != id }

/-- `RestoreGuard::apply_factor`: walk `ids` in order, skip ids without a
baseline, and issue one `wpctl set-volume` per remaining id with
`(base * factor).clamp(0.0, 1.5)`. The returned list is the sequence of
issued `(id, volume)` commands. -/
def applyFactorCmds (g : RestoreGuard) (factor : ℚ) : List (Nat × ℚ) :=
  g.ids.filterMap fun id =>
    (lookupBL g.baselines id).map fun base => (id, clampQ (base * factor) 0 (3/2))

/-- `RestoreGuard::apply_duck`: run the pass, then set
`ducked = factor < 0.999`. -/
def RestoreGuard.apply_duck (g : RestoreGuard) (factor : ℚ) :
    List (Nat × ℚ) × RestoreGuard :=
  (applyFactorCmds g factor, { g with ducked := factor < 999/1000 })

/-- `RestoreGuard::restore`: `apply_factor(1.0)`, then `ducked = false`. -/
def RestoreGuard.restore (g : RestoreGuard) : List (Nat × ℚ) × RestoreGuard :=
  (applyFactorCmds g 1, { g with ducked := false })

/-- `impl Drop for RestoreGuard`: one restore pass iff `ducked`. -/
def RestoreGuard.dropCmds (g : RestoreGuard) : List (Nat × ℚ) :=
  if g.ducked then g.restore.1 else []

/-- The `std::panic::set_hook` closure from `main.rs`: it upgrades the weak
handle and calls `restore()` unconditionally. -/
def panicHook (g : RestoreGuard) : List (Nat × ℚ) × RestoreGuard := g.restore

/-- Commands issued on abnormal termination: the panic hook runs first,
then unwinding drops the guard. -/
def panicTeardownCmds (g : RestoreGuard) : List (Nat × ℚ) :=
  (panicHook g).1 ++ (panicHook g).2.dropCmds

/-- Commands issued on orderly shutdown or error exit: only the drop runs. -/
def orderlyTeardownCmds (g : RestoreGuard) : List (Nat × ℚ) :=
  g.dropCmds

/-- VAD hysteresis state, from `analysis.rs` (`struct VadState`);
timestamps in milliseconds. -/
structure VadState where
  last_above : Option Nat
  above_start : Option Nat
  voice_active : Bool
deriving DecidableEq, Repr

/-- The state-update portion of `auto_vad_step` (`analysis.rs`, the
energy-vs-threshold branch): runs only under `ControlMode::AutoVad`.
`now.duration_since(t).as_millis()` is `now - t` (saturating). -/
def vadUpdate (thr : ℚ) (attack_ms hold_ms : Nat) (now : Nat) (energy : ℚ)
    (s : VadState) : VadState :=
  if thr < energy then
    let s1 : VadState := { s with last_above := some now }
    if s1.voice_active = false then
      match s1.above_start with
      | none => { s1 with above_start := some now }
      | some start =>
        if attack_ms = 0 ∨ attack_ms ≤ now - start then
          { s1 with voice_active := true, above_start := none }
        else s1
    else s1
  else
    let s1 : VadState := { s with above_start := none }
    if s1.voice_active = true then
      match s1.last_above with
      | some last =>
        if hold_ms ≤ now - last then
          { s1 with voice_active := false, last_above := none }
        else s1
      | none => s1
    else s1

/-- Run the VAD update over the first `n` readings of a timestamp/energy
sequence (one `auto_vad_step` per control-loop tick in `AutoVad` mode). -/
def runVadN (thr : ℚ) (attack_ms hold_ms : Nat) (t : Nat → Nat) (e : Nat → ℚ) :
    Nat → VadState → VadState
  | 0, s => s
  | n + 1, s =>
    vadUpdate thr attack_ms hold_ms (t n) (e n) (runVadN thr attack_ms hold_ms t e n s)

/-- Run the VAD update over a finite list of `(time, energy)` readings. -/
def runVad (thr : ℚ) (attack_ms hold_ms : Nat) :
    List (Nat × ℚ) → VadState → VadState
  | [], s => s
  | (tm, en) :: rest, s =>
    runVad thr attack_ms hold_ms rest (vadUpdate thr attack_ms hold_ms tm en s)

/-- Full `auto_vad_step` from `analysis.rs`: bypass unless `AutoVad`,
update the VAD state, then edge-triggered actuation against the guard's
applied state (`desired_duck != guard.ducked`). Returns the new VAD state,
the new guard, and the issued volume commands. -/
def autoVadStep (mode : ControlMode) (energy thr : ℚ) (now : Nat)
    (vad : VadState) (g : RestoreGuard) (duck_factor : ℚ)
    (attack_ms hold_ms : Nat) : VadState × RestoreGuard × List (Nat × ℚ) :=
  if mode ≠ ControlMode.AutoVad then (vad, g, [])
  else
    let vad1 := vadUpdate thr attack_ms hold_ms now energy vad
    if vad1.voice_active ≠ g.ducked then
      if vad1.voice_active then
        ((vad1, (g.apply_duck duck_factor).2, (g.apply_duck duck_factor).1))
      else
        ((vad1, g.restore.2, g.restore.1))
    else (vad1, g, [])

/-- Iterate `autoVadStep` (in `AutoVad` mode) over a list of
`(time, energy)` readings, accumulating the issued volume commands. -/
def runAuto (thr : ℚ) (attack_ms hold_ms : Nat) (duck_factor : ℚ) :
    List (Nat × ℚ) → VadState × RestoreGuard →
    VadState × RestoreGuard × List (Nat × ℚ)
  | [], (v, g) => (v, g, [])
  | (tm, en) :: rest, (v, g) =>
    let step := autoVadStep ControlMode.AutoVad en thr tm v g duck_factor attack_ms hold_ms
    let tail := runAuto thr attack_ms hold_ms duck_factor rest (step.1, step.2.1)
    (tail.1, tail.2.1, step.2.2 ++ tail.2.2)

/-- The space-key branch of `handle_gui_input` (`ui.rs`): toggle between
`AutoVad` and `ManualRestored`; restore if currently ducked; on entering
`AutoVad`, reset the VAD hysteresis memory. Returns the new mode, VAD
state, guard, and issued volume commands. -/
def spaceKeyPress (mode : ControlMode) (vad : VadState) (g : RestoreGuard) :
    ControlMode × VadState × RestoreGuard × List (Nat × ℚ) :=
  if mode = ControlMode.AutoVad then
    if g.ducked then (ControlMode.ManualRestored, vad, g.restore.2, g.restore.1)
    else (ControlMode.ManualRestored, vad, g, [])
  else
    let vad1 : VadState := { last_above := none, above_start := none, voice_active := false }
    if g.ducked then (ControlMode.AutoVad, vad1, g.restore.2, g.restore.1)
    else (ControlMode.AutoVad, vad1, g, [])

/-- `main.rs` VAD-timer closure: the hold value actually passed to
`auto_vad_step` (`hold_ms_effective`). -/
def holdEffective (hold_ms : Nat) : Nat := if hold_ms < 300 then 300 else hold_ms

/-- The hold value the tick passes to the step: live value in GUI mode,
CLI value otherwise, floored by `holdEffective`. -/
def tickHoldMs (gui_enabled : Bool) (hold_live hold_cli : Nat) : Nat :=
  holdEffective (if gui_enabled then hold_live else hold_cli)

/-- GUI key `q` (`ui.rs`): `hold.saturating_sub(50)`. -/
def holdKeyQ (hold : Nat) : Nat := hold - 50

/-- GUI key `e` (`ui.rs`): `(hold + 50).min(2000)`. -/
def holdKeyE (hold : Nat) : Nat := min (hold + 50) 2000

/-- `main.rs`: the duck factor established at startup — the CLI value in
GUI mode, `0.0` in `--debug` (non-GUI) mode. -/
def initDuckFactor (gui_enabled : Bool) (cli_duck_factor : ℚ) : ℚ :=
  if gui_enabled then cli_duck_factor else 0

/-- `main.rs` VAD-timer closure (`duck_factor_now`): the live GUI value in
GUI mode, the startup value otherwise. -/
def duckFactorNow (gui_enabled : Bool) (duck_factor_live duck_factor : ℚ) : ℚ :=
  if gui_enabled then duck_factor_live else duck_factor

/-- Negotiated sample format tag, from `capture.rs` (`AudioFormat`);
`other` stands for every format the process callback does not decode. -/
inductive SampleFormat
  | F32LE
  | F32BE
  | S16LE
  | S16BE
  | other
deriving DecidableEq, Repr

/-- `chunks_exact(2)` over a byte list (a trailing odd byte is dropped). -/
def chunks2 : List Nat → List (Nat × Nat)
  | a :: b :: rest => (a, b) :: chunks2 rest
  | _ => []

/-- `chunks_exact(4)` over a byte list (a short trailing chunk is dropped). -/
def chunks4 : List Nat → List (Nat × Nat × Nat × Nat)
  | a :: b :: c :: d :: rest => (a, b, c, d) :: chunks4 rest
  | _ => []

/-- Two's-complement reading of a 16-bit word (`i16::from_*_bytes`). -/
def toI16 (n : Nat) : Int :=
  if n % 65536 < 32768 then ((n % 65536 : Nat) : Int)
  else ((n % 65536 : Nat) : Int) - 65536

/-- Opaque-to-us IEEE `f32` byte decoding, abstracted: the flag selects
big-endian (`true`) versus little-endian (`false`). No claim depends on
its value. -/
def F32Dec : Type := Bool → Nat → Nat → Nat → Nat → ℚ

/-- Per-format sample decoding of the windowed byte slice, from the
`match user_data.format.format()` in the process callback: `none` stands
for the unsupported-format arm. 16-bit samples are normalized by
`i16::MAX = 32767`. -/
def decodeSamples (f32dec : F32Dec) (fmt : SampleFormat) (slice : List Nat) :
    Option (List ℚ) :=
  match fmt with
  | SampleFormat.F32LE =>
    some ((chunks4 slice).map fun c => f32dec false c.1 c.2.1 c.2.2.1 c.2.2.2)
  | SampleFormat.F32BE =>
    some ((chunks4 slice).map fun c => f32dec true c.1 c.2.1 c.2.2.1 c.2.2.2)
  | SampleFormat.S16LE =>
    some ((chunks2 slice).map fun c => ((toI16 (c.1 + 256 * c.2) : ℚ) / 32767))
  | SampleFormat.S16BE =>
    some ((chunks2 slice).map fun c => ((toI16 (c.2 + 256 * c.1) : ℚ) / 32767))
  | SampleFormat.other => none

/-- The process callback of `setup_capture` (`capture.rs`), tracking the
square of the energy cell (the cell itself stores the RMS, a nonnegative
value, so its square determines it; the published energy is the square
root of this value). Early-exit branches leave the cell untouched; the
unsupported-format arm stores `0.0` and decodes nothing; a supported
format stores `sqrt(sum_sq / count)` when at least one sample decoded. -/
def processEnergySq (f32dec : F32Dec) (n_channels : Nat) (fmt : SampleFormat)
    (buf : List Nat) (offset size : Nat) (prevSq : ℚ) : ℚ :=
  if n_channels = 0 then prevSq
  else if size = 0 then prevSq
  else if buf.length ≤ offset then prevSq
  else
    let endIdx := min (offset + size) buf.length
    if endIdx ≤ offset then prevSq
    else
      let slice := (buf.drop offset).take (endIdx - offset)
      match decodeSamples f32dec fmt slice with
      | none => 0
      | some samples =>
        if 0 < samples.length then
          (samples.map fun s => s * s).sum / (samples.length : ℚ)
        else prevSq

/-- Last volume value issued for a stream id in a command sequence. -/
def lastSetFor (cmds : List (Nat × ℚ)) (id : Nat) : Option ℚ :=
  ((cmds.filter fun c => c.1 == id).getLast?).map Prod.snd

/-- The designated voice id is not among the tracked ids. -/
def voiceExcluded (g : RestoreGuard) : Prop :=
  ∀ v, g.voice_id = some v → v ∉ g.ids

/-- The claimed scenario's readings (threshold 0.02, attack 0, hold
350 ms): energies at exact 50 ms ticks, tick `i` at `t = 50·i` ms (tick 0
is the first reading). -/
def scenarioTrace : List (Nat × ℚ) :=
  [(0, 3/100), (50, 3/100), (100, 1/100), (150, 1/100),
   (200, 1/100), (250, 1/100), (300, 1/100), (350, 1/100)]

/-! ### Helper lemmas -/

lemma clampQ_eq_self {b : ℚ} (h0 : 0 ≤ b) (h1 : b ≤ 3/2) : clampQ b 0 (3/2) = b := by
  simp [clampQ, min_eq_left h1, max_eq_right h0]

/-! ### C9: hold floor at 300 ms -/

/-- C9. On every control-loop tick the hold value passed to the VAD step is
floored at 300 ms: values below 300 (reachable through the GUI `q` key,
which saturates down to 0) are replaced by 300, values at or above 300 are
passed through, so the release hysteresis is never shorter than 300 ms. -/
theorem hold_floor_300 :
    (∀ gui hl hc, 300 ≤ tickHoldMs gui hl hc) ∧
    (∀ h, h < 300 → holdEffective h = 300) ∧
    (∀ h, 300 ≤ h → holdEffective h = h) ∧
    (∀ h, holdKeyQ h = h - 50) ∧
    holdKeyQ 50 = 0 ∧ holdEffective 0 = 300 := by
  refine ⟨fun gui hl hc => ?_, fun h hh => ?_, fun h hh => ?_, fun h => rfl, rfl, rfl⟩
  · unfold tickHoldMs holdEffective
    split <;> split <;> omega
  · unfold holdEffective
    split <;> omega
  · unfold holdEffective
    split <;> omega

/-- Witness for C9 at concrete inputs: a live hold of 0 (CLI hold 350) in
GUI mode is floored to 300, and 250 is floored to 300. -/
theorem hold_floor_300_witness :
    300 ≤ tickHoldMs true 0 350 ∧ holdEffective 250 = 300 :=
  ⟨hold_floor_300.1 true 0 350, hold_floor_300.2.1 250 (by omega)⟩

/-! ### C10: debug mode forces duck factor 0 -/

/-- C10. In non-GUI (`--debug`) mode the startup duck factor is forced to
0 regardless of `--duck-factor`, and the tick always uses that value, so
every duck pass issues volume 0 (complete mute) for each tracked stream;
the configured factor is used only in GUI mode. -/
theorem debug_duck_factor_zero :
    (∀ cli live, duckFactorNow false live (initDuckFactor false cli) = 0) ∧
    (∀ cli, initDuckFactor true cli = cli) ∧
    (∀ live df, duckFactorNow true live df = live) ∧
    (∀ g : RestoreGuard, ∀ c ∈ applyFactorCmds g 0, c.2 = 0) ∧
    (∀ g : RestoreGuard, (g.apply_duck 0).2.ducked = true) := by
  refine ⟨fun cli live => rfl, fun cli => rfl, fun live df => rfl,
    fun g c hc => ?_, fun g => ?_⟩
  · obtain ⟨i, _, hi⟩ := List.mem_filterMap.mp hc
    obtain ⟨base, _, hbc⟩ := Option.map_eq_some'.mp hi
    rw [← hbc]
    simp [clampQ]
  · simp [RestoreGuard.apply_duck]

/-- Witness for C10: for a guard tracking stream 4 with baseline 1, the
duck pass at factor 0 issues volume 0. -/
theorem debug_duck_factor_zero_witness :
    ((4, (0 : ℚ)) : Nat × ℚ).2 = 0 :=
  debug_duck_factor_zero.2.2.2.1 ⟨[(4, 1)], [4], none, false, false⟩ (4, 0)
    (by norm_num [applyFactorCmds, lookupBL, clampQ])

/-! ### C8: unsupported sample format publishes energy 0 -/

/-- C8. When the negotiated format is none of F32LE/F32BE/S16LE/S16BE,
processing a non-empty in-range buffer stores 0 in the energy cell
immediately — the published energy (the square root of the cell square)
is 0 after the callback, independent of any previous reading — and the
model is total, so extraction continues without an error. -/
theorem unsupported_format_energy_zero (f32dec : F32Dec) (n_channels : Nat)
    (buf : List Nat) (offset size : Nat) (prevSq : ℚ)
    (hch : n_channels ≠ 0) (hsz : size ≠ 0) (hoff : offset < buf.length) :
    processEnergySq f32dec n_channels SampleFormat.other buf offset size prevSq = 0 ∧
    Real.sqrt ((processEnergySq f32dec n_channels SampleFormat.other buf offset size prevSq : ℚ) : ℝ) = 0 := by
  have h4 : ¬ min (offset + size) buf.length ≤ offset := by
    simp only [not_le, lt_min_iff]
    exact ⟨Nat.lt_add_of_pos_right (Nat.pos_of_ne_zero hsz), hoff⟩
  have hz : processEnergySq f32dec n_channels SampleFormat.other buf offset size prevSq = 0 := by
    simp only [processEnergySq, if_neg hch, if_neg hsz, if_neg (not_le.mpr hoff), if_neg h4,
      decodeSamples]
  refine ⟨hz, ?_⟩
  rw [hz]
  simp

/-- Witness for C8: a concrete 4-byte in-range buffer in an unsupported
format publishes energy 0 even though the previous cell value was 5. -/
theorem unsupported_format_energy_zero_witness :
    processEnergySq (fun _ _ _ _ _ => 0) 2 SampleFormat.other [9, 9, 9, 9] 0 4 5 = 0 ∧
    Real.sqrt ((processEnergySq (fun _ _ _ _ _ => 0) 2 SampleFormat.other [9, 9, 9, 9] 0 4 5 : ℚ) : ℝ) = 0 :=
  unsupported_format_energy_zero (fun _ _ _ _ _ => 0) 2 [9, 9, 9, 9] 0 4 5
    (by omega) (by omega) (by simp)

/-! ### C1: restoration at teardown -/

lemma map_fst_applyFactor (bl : List (Nat × ℚ)) (f : ℚ) :
    ∀ l : List Nat,
      ((l.filterMap fun id =>
        (lookupBL bl id).map fun base => (id, clampQ (base * f) 0 (3/2))).map Prod.fst)
        = l.filter fun id => (lookupBL bl id).isSome
  | [] => rfl
  | id :: rest => by
    cases h : lookupBL bl id <;>
      simp [List.filterMap_cons, h, map_fst_applyFactor bl f rest]

/-- Counterexample to C1 as stated: for a guard whose applied flag is
`false`, abnormal termination still performs a restore pass — the panic
hook calls `restore()` unconditionally — so a volume-set is issued even
though `ducked = false`, where the claim requires none. -/
theorem panic_restore_when_unapplied_cex :
    panicTeardownCmds ⟨[(5, 1)], [5], none, false, false⟩ = [(5, 1)] ∧
    panicTeardownCmds ⟨[(5, 1)], [5], none, false, false⟩ ≠ [] := by
  have he : panicTeardownCmds ⟨[(5, 1)], [5], none, false, false⟩ = [(5, 1)] := by
    norm_num [panicTeardownCmds, panicHook, RestoreGuard.restore, RestoreGuard.dropCmds,
      applyFactorCmds, lookupBL, clampQ, List.filterMap_cons]
  exact ⟨he, by rw [he]; intro h; cases h⟩

/-- C1 (amended). When the guard's lifetime ends with `ducked = true`,
exactly one best-effort restore pass over all tracked streams is issued
before release, on the orderly path (drop) and on the abnormal path
(panic hook, after which the drop sees `ducked = false` and adds nothing);
each tracked id with a baseline is set exactly once per pass, with no
retry. When `ducked = false`, the orderly drop path issues no restore
pass — but the panic hook still issues one unconditional pass. -/
theorem teardown_single_restore_pass (g : RestoreGuard) :
    (g.ducked = true → orderlyTeardownCmds g = applyFactorCmds g 1) ∧
    (g.ducked = false → orderlyTeardownCmds g = []) ∧
    panicTeardownCmds g = applyFactorCmds g 1 ∧
    (applyFactorCmds g 1).map Prod.fst = g.ids.filter fun id => (lookupBL g.baselines id).isSome := by
    refine ⟨fun hd => ?_, fun hd => ?_, ?_, map_fst_applyFactor g.baselines 1 g.ids⟩
    · simp [orderlyTeardownCmds, RestoreGuard.dropCmds, hd, RestoreGuard.restore]
    · simp [orderlyTeardownCmds, RestoreGuard.dropCmds, hd]
    · simp [panicTeardownCmds, panicHook, RestoreGuard.restore, RestoreGuard.dropCmds]

/-- Witness for C1 (amended) at a concrete ducked guard: orderly teardown
issues exactly the single restore pass. -/
theorem teardown_single_restore_pass_witness :
    orderlyTeardownCmds ⟨[(5, 1/2)], [5], none, true, false⟩ =
      applyFactorCmds ⟨[(5, 1/2)], [5], none, true, false⟩ 1 :=
  (teardown_single_restore_pass ⟨[(5, 1/2)], [5], none, true, false⟩).1 rfl

/-! ### C5: the voice stream is never volume-set -/

/-- Counterexample to C5 as stated: `RestoreGuard::new` clones the whole
input volume map, filtering the voice id only out of the tracked-ids list,
so a voice entry in the input map stays in the baseline table. -/
theorem new_keeps_voice_baseline_cex :
    lookupBL (RestoreGuard.new [(7, 1)] (some 7) false).baselines 7 = some 1 ∧
    (RestoreGuard.new [(7, 1)] (some 7) false).ids = [] := by
  constructor
  · rfl
  · simp [RestoreGuard.new]

/-- C5 (amended). The tracked-ids list never contains the voice id:
construction filters it out (though the copied baseline map may retain a
voice entry present in the input map), `add_stream` is a no-op for the
voice id, and `remove_stream`, `apply_duck` and `restore` preserve the
exclusion; since every volume-set iterates the tracked-ids list, no
operation ever issues a volume-set for the voice stream. -/
theorem voice_stream_never_set :
    (∀ bl vid gui, voiceExcluded (RestoreGuard.new bl vid gui)) ∧
    (∀ (g : RestoreGuard) id b, voiceExcluded g →
      voiceExcluded (g.add_stream id b) ∧ (g.voice_id = some id → g.add_stream id b = g)) ∧
    (∀ (g : RestoreGuard) id, voiceExcluded g → voiceExcluded (g.remove_stream id)) ∧
    (∀ (g : RestoreGuard) f, (g.apply_duck f).2.ids = g.ids ∧
      (g.apply_duck f).2.voice_id = g.voice_id ∧
      g.restore.2.ids = g.ids ∧ g.restore.2.voice_id = g.voice_id) ∧
    (∀ (g : RestoreGuard) f v, voiceExcluded g → g.voice_id = some v →
      ∀ c ∈ applyFactorCmds g f, c.1 ≠ v) := by
  refine ⟨?_, ?_, ?_, ?_, ?_⟩
  · intro bl vid gui v hv hmem
    rw [RestoreGuard.new] at hv hmem
    simp only at hv hmem
    rw [List.mem_mergeSort] at hmem
    obtain ⟨-, hp⟩ := List.mem_filter.mp hmem
    rw [hv] at hp
    simp at hp
  · intro g id b hg
    constructor
    · intro v hv hmem
      rw [RestoreGuard.add_stream] at hv hmem
      by_cases hid : g.voice_id = some id
      · rw [if_pos hid] at hv hmem
        exact hg v hv hmem
      · rw [if_neg hid] at hv hmem
        simp only at hv hmem
        by_cases hc : g.ids.contains id
        · rw [if_pos hc] at hmem
          exact hg v hv hmem
        · rw [if_neg hc] at hmem
          rcases List.mem_append.mp hmem with h | h
          · exact hg v hv h
          · rw [List.mem_singleton] at h
            exact hid (h ▸ hv)
    · intro hid
      rw [RestoreGuard.add_stream, if_pos hid]
  · intro g id hg v hv hmem
    rw [RestoreGuard.remove_stream] at hv hmem
    simp only at hv hmem
    exact hg v hv (List.mem_of_mem_filter hmem)
  · intro g f
    exact ⟨rfl, rfl, rfl, rfl⟩
  · intro g f v hg hv c hc
    obtain ⟨i, hi, hmap⟩ := List.mem_filterMap.mp hc
    obtain ⟨base, -, hbc⟩ := Option.map_eq_some'.mp hmap
    intro hcv
    apply hg v hv
    rw [← hbc] at hcv
    simpa [← hcv] using hi

/-- Witness for C5 (amended) at a concrete guard with voice id 7:
`add_stream` of the voice id is a no-op. -/
theorem voice_stream_never_set_witness :
    RestoreGuard.add_stream ⟨[(5, 1)], [5], some 7, false, false⟩ 7 (1/2)
      = ⟨[(5, 1)], [5], some 7, false, false⟩ :=
  (voice_stream_never_set.2.1 ⟨[(5, 1)], [5], some 7, false, false⟩ 7 (1/2)
    (by intro v hv hmem; cases hv; simp at hmem)).2 rfl

/-! ### C4: apply then restore round-trips to the baseline -/

lemma lastSetFor_append_right (l1 l2 : List (Nat × ℚ)) (id : Nat) (v : ℚ)
    (h : lastSetFor l2 id = some v) : lastSetFor (l1 ++ l2) id = some v := by
  unfold lastSetFor at h ⊢
  rw [List.filter_append, List.getLast?_append]
  obtain ⟨x, hx, hxv⟩ := Option.map_eq_some'.mp h
  rw [hx]
  simp [hxv]

lemma lastSetFor_uniform (cmds : List (Nat × ℚ)) (id : Nat) (v : ℚ)
    (hex : ∃ c ∈ cmds, c.1 = id)
    (hall : ∀ c ∈ cmds, c.1 = id → c.2 = v) :
    lastSetFor cmds id = some v := by
  obtain ⟨c, hc, hcid⟩ := hex
  have hne : (cmds.filter fun c => c.1 == id) ≠ [] :=
    List.ne_nil_of_mem (List.mem_filter.mpr ⟨hc, by simp [hcid]⟩)
  unfold lastSetFor
  rw [List.getLast?_eq_getLast _ hne]
  obtain ⟨hxmem, hxid⟩ := List.mem_filter.mp (List.getLast_mem hne)
  simp only [Option.map_some']
  rw [hall _ hxmem (by simpa using hxid)]

/-- C4. For every duck factor `f` and every tracked stream id whose
recorded baseline lies in `[0, 1.5]`, the command sequence of
`apply_duck f` followed by `restore()` ends, for that id, with a
volume-set of exactly the baseline; and the round trip leaves the
baseline table and tracked-ids list unchanged, with `ducked = false`. -/
theorem apply_restore_round_trip (g : RestoreGuard) (f : ℚ) (id : Nat) (b : ℚ)
    (hmem : id ∈ g.ids) (hb : lookupBL g.baselines id = some b)
    (h0 : 0 ≤ b) (h1 : b ≤ 3/2) :
    lastSetFor ((g.apply_duck f).1 ++ ((g.apply_duck f).2.restore).1) id = some b ∧
    ((g.apply_duck f).2.restore).2.baselines = g.baselines ∧
    ((g.apply_duck f).2.restore).2.ids = g.ids ∧
    ((g.apply_duck f).2.restore).2.ducked = false := by
  refine ⟨?_, rfl, rfl, rfl⟩
  have hrest : ((g.apply_duck f).2.restore).1 = applyFactorCmds g 1 := rfl
  rw [hrest]
  apply lastSetFor_append_right
  apply lastSetFor_uniform
  · refine ⟨(id, b), List.mem_filterMap.mpr ⟨id, hmem, ?_⟩, rfl⟩
    rw [hb, Option.map_some', mul_one, clampQ_eq_self h0 h1]
  · intro c hc hcid
    obtain ⟨i, hi, hmap⟩ := List.mem_filterMap.mp hc
    obtain ⟨base, hbase, hbc⟩ := Option.map_eq_some'.mp hmap
    have hci : c.1 = i := by rw [← hbc]
    have hib : base = b := by
      rw [hci] at hcid
      rw [hcid] at hbase
      rw [hb] at hbase
      exact (Option.some_injective _ hbase).symm
    rw [← hbc]
    simp only
    rw [hib, mul_one, clampQ_eq_self h0 h1]

/-- Witness for C4 at a concrete guard: stream 5 with baseline 1/2,
duck factor 0.45 — the final set for id 5 is exactly 1/2 and the state is
unchanged. -/
theorem apply_restore_round_trip_witness :
    lastSetFor ((RestoreGuard.apply_duck ⟨[(5, 1/2)], [5], none, false, false⟩ (45/100)).1 ++
        (((RestoreGuard.apply_duck ⟨[(5, 1/2)], [5], none, false, false⟩ (45/100)).2).restore).1) 5
      = some (1/2) ∧
    ((((RestoreGuard.apply_duck ⟨[(5, 1/2)], [5], none, false, false⟩ (45/100)).2).restore).2).baselines
      = [(5, 1/2)] ∧
    ((((RestoreGuard.apply_duck ⟨[(5, 1/2)], [5], none, false, false⟩ (45/100)).2).restore).2).ids
      = [5] ∧
    ((((RestoreGuard.apply_duck ⟨[(5, 1/2)], [5], none, false, false⟩ (45/100)).2).restore).2).ducked
      = false :=
  apply_restore_round_trip ⟨[(5, 1/2)], [5], none, false, false⟩ (45/100) 5 (1/2)
    (by simp) rfl (by norm_num) (by norm_num)

/-! ### C7: full-scale 16-bit buffers have RMS exactly 1 -/

lemma sum_map_sq_ones {l : List ℚ} (h : ∀ x ∈ l, x * x = 1) :
    (l.map fun s => s * s).sum = l.length := by
  induction l with
  | nil => simp
  | cons a t ih =>
    simp only [List.map_cons, List.sum_cons, List.length_cons]
    rw [h a (List.mem_cons_self a t), ih fun x hx => h x (List.mem_cons_of_mem a hx)]
    push_cast
    ring

lemma processEnergySq_unit_samples (f32dec : F32Dec) (nCh : Nat) (fmt : SampleFormat)
    (buf : List Nat) (prevSq : ℚ) (samples : List ℚ)
    (hch : nCh ≠ 0) (hbuf : buf ≠ [])
    (hdec : decodeSamples f32dec fmt buf = some samples)
    (hne : samples ≠ [])
    (hsq : ∀ x ∈ samples, x * x = 1) :
    processEnergySq f32dec nCh fmt buf 0 buf.length prevSq = 1 := by
  have hlen : buf.length ≠ 0 := fun h => hbuf (List.length_eq_zero.mp h)
  have hslen : 0 < samples.length := List.length_pos.mpr hne
  unfold processEnergySq
  rw [if_neg hch, if_neg hlen, if_neg (show ¬ buf.length ≤ 0 by omega)]
  simp only [Nat.zero_add, Nat.min_self, Nat.sub_zero, List.drop_zero, List.take_length]
  rw [if_neg (show ¬ buf.length ≤ 0 by omega), hdec]
  simp only [hslen, if_pos]
  rw [sum_map_sq_ones hsq]
  exact div_self (by exact_mod_cast Nat.pos_iff_ne_zero.mp hslen)

/-- C7. For both 16-bit integer formats the RMS energy of a buffer whose
samples all decode to full-scale magnitude (`±i16::MAX`, the divisor used
for normalization) is exactly 1: each normalized sample squares to 1, so
the mean square is 1 and the published RMS is √1 = 1. -/
theorem s16_fullscale_rms_one (f32dec : F32Dec) (n_channels : Nat) (prevSq : ℚ)
    (bufLE bufBE : List Nat) (hch : n_channels ≠ 0)
    (hLEne : chunks2 bufLE ≠ []) (hBEne : chunks2 bufBE ≠ [])
    (hLE : ∀ c ∈ chunks2 bufLE,
      toI16 (c.1 + 256 * c.2) = 32767 ∨ toI16 (c.1 + 256 * c.2) = -32767)
    (hBE : ∀ c ∈ chunks2 bufBE,
      toI16 (c.2 + 256 * c.1) = 32767 ∨ toI16 (c.2 + 256 * c.1) = -32767) :
    Real.sqrt ((processEnergySq f32dec n_channels SampleFormat.S16LE bufLE 0 bufLE.length prevSq : ℚ) : ℝ) = 1 ∧
    Real.sqrt ((processEnergySq f32dec n_channels SampleFormat.S16BE bufBE 0 bufBE.length prevSq : ℚ) : ℝ) = 1 := by
  have hbufLE : bufLE ≠ [] := by
    intro h
    rw [h] at hLEne
    exact hLEne rfl
  have hbufBE : bufBE ≠ [] := by
    intro h
    rw [h] at hBEne
    exact hBEne rfl
  have hsqLE : ∀ x ∈ (chunks2 bufLE).map fun c => ((toI16 (c.1 + 256 * c.2) : ℚ) / 32767),
      x * x = 1 := by
    intro x hx
    obtain ⟨c, hc, hcx⟩ := List.mem_map.mp hx
    rcases hLE c hc with h | h <;> rw [← hcx, h] <;> norm_num
  have hsqBE : ∀ x ∈ (chunks2 bufBE).map fun c => ((toI16 (c.2 + 256 * c.1) : ℚ) / 32767),
      x * x = 1 := by
    intro x hx
    obtain ⟨c, hc, hcx⟩ := List.mem_map.mp hx
    rcases hBE c hc with h | h <;> rw [← hcx, h] <;> norm_num
  constructor
  · rw [processEnergySq_unit_samples f32dec n_channels SampleFormat.S16LE bufLE prevSq _
      hch hbufLE rfl (by simpa using hLEne) hsqLE]
    simp
  · rw [processEnergySq_unit_samples f32dec n_channels SampleFormat.S16BE bufBE prevSq _
      hch hbufBE rfl (by simpa using hBEne) hsqBE]
    simp

/-- Witness for C7: concrete full-scale buffers — little-endian
`[0xFF 0x7F, 0x01 0x80]` decodes to `[32767, -32767]`, big-endian
`[0x7F 0xFF]` to `[32767]` — both give RMS exactly 1. -/
theorem s16_fullscale_rms_one_witness :
    Real.sqrt ((processEnergySq (fun _ _ _ _ _ => 0) 2 SampleFormat.S16LE [255, 127, 1, 128] 0
      (List.length [255, 127, 1, 128]) 0 : ℚ) : ℝ) = 1 ∧
    Real.sqrt ((processEnergySq (fun _ _ _ _ _ => 0) 2 SampleFormat.S16BE [127, 255] 0
      (List.length [127, 255]) 0 : ℚ) : ℝ) = 1 :=
  s16_fullscale_rms_one (fun _ _ _ _ _ => 0) 2 0 [255, 127, 1, 128] [127, 255]
    (by omega) (by decide) (by decide) (by decide) (by decide)

/-! ### C2: release hysteresis of the VAD machine -/

lemma vadUpdate_lastAbove_above {thr energy : ℚ} {a hm now : Nat} {s : VadState}
    (h : thr < energy) :
    (vadUpdate thr a hm now energy s).last_above = some now := by
  obtain ⟨la, as, va⟩ := s
  unfold vadUpdate
  rw [if_pos h]
  cases va with
  | false =>
    cases as with
    | none => simp
    | some start =>
      by_cases hc : a = 0 ∨ a ≤ now - start
      · simp [hc]
      · simp [hc]
  | true => simp

lemma vadUpdate_active_above {thr energy : ℚ} {a hm now : Nat} {s : VadState}
    (h : thr < energy) (hv : s.voice_active = true) :
    (vadUpdate thr a hm now energy s).voice_active = true := by
  obtain ⟨la, as, va⟩ := s
  replace hv : va = true := hv
  subst hv
  unfold vadUpdate
  rw [if_pos h]
  simp

lemma vadUpdate_below_lastAbove {thr energy : ℚ} {a hm now : Nat} {s : VadState} {τ : Nat}
    (h : ¬ thr < energy)
    (hla : (vadUpdate thr a hm now energy s).last_above = some τ) :
    s.last_above = some τ := by
  obtain ⟨la, as, va⟩ := s
  unfold vadUpdate at hla
  rw [if_neg h] at hla
  cases va with
  | false => exact hla
  | true =>
    cases la with
    | none => exact hla
    | some last =>
      by_cases hh : hm ≤ now - last
      · simp [hh] at hla
      · simpa [hh] using hla

lemma vadUpdate_deactivated {thr energy : ℚ} {a hm now : Nat} {s : VadState}
    (h : ¬ thr < energy) (hv : s.voice_active = true)
    (hd : (vadUpdate thr a hm now energy s).voice_active = false) :
    ∃ last, s.last_above = some last ∧ hm ≤ now - last := by
  obtain ⟨la, as, va⟩ := s
  replace hv : va = true := hv
  subst hv
  unfold vadUpdate at hd
  rw [if_neg h] at hd
  cases la with
  | none => simp at hd
  | some last =>
    by_cases hh : hm ≤ now - last
    · exact ⟨last, rfl, hh⟩
    · simp [hh] at hd

lemma vadUpdate_below_inactive {thr energy : ℚ} {a hm now : Nat} {s : VadState}
    (h : ¬ thr < energy) (hv : s.voice_active = false) :
    vadUpdate thr a hm now energy s = { s with above_start := none } := by
  obtain ⟨la, as, va⟩ := s
  replace hv : va = false := hv
  subst hv
  unfold vadUpdate
  rw [if_neg h]
  simp

lemma vadUpdate_reset_inactive {thr energy : ℚ} {a hm t : Nat} :
    (vadUpdate thr a hm t energy ⟨none, none, false⟩).voice_active = false := by
  by_cases h : thr < energy
  · unfold vadUpdate
    rw [if_pos h]
    simp
  · rw [vadUpdate_below_inactive h rfl]

/-- Invariant: whenever `last_above` is set after `n` readings (starting
from a state with `last_above = none`), it equals the timestamp of the
most recent above-threshold reading, and every reading since then was at
or below the threshold. -/
lemma runVadN_lastAbove_inv (thr : ℚ) (a hm : Nat) (t : Nat → Nat) (e : Nat → ℚ)
    (s0 : VadState) (h0 : s0.last_above = none) :
    ∀ n τ, (runVadN thr a hm t e n s0).last_above = some τ →
      ∃ j, j < n ∧ thr < e j ∧ t j = τ ∧ ∀ k, j < k → k < n → ¬ thr < e k := by
  intro n
  induction n with
  | zero =>
    intro τ hτ
    rw [show runVadN thr a hm t e 0 s0 = s0 from rfl, h0] at hτ
    cases hτ
  | succ n ih =>
    intro τ hτ
    rw [show runVadN thr a hm t e (n + 1) s0
        = vadUpdate thr a hm (t n) (e n) (runVadN thr a hm t e n s0) from rfl] at hτ
    by_cases he : thr < e n
    · rw [vadUpdate_lastAbove_above he] at hτ
      obtain rfl : t n = τ := by injection hτ
      exact ⟨n, Nat.lt_succ_self n, he, rfl, fun k hk1 hk2 => absurd hk2 (by omega)⟩
    · obtain ⟨j, hj, hje, hjt, hall⟩ := ih τ (vadUpdate_below_lastAbove he hτ)
      refine ⟨j, Nat.lt_succ_of_lt hj, hje, hjt, fun k hk1 hk2 => ?_⟩
      rcases Nat.lt_succ_iff_lt_or_eq.mp hk2 with hlt | hEq
      · exact hall k hk1 hlt
      · rw [hEq]
        exact he

/-- C2. In `AutoVad` mode, for every timestamp/energy sequence run from a
fresh state: an above-threshold reading always refreshes `last_above` to
its own timestamp; and once `voice_active` is true it turns false at a
step only if that step's energy is at or below the threshold, some earlier
reading `j` was the last one above the threshold, at least `hold_ms` have
elapsed since it, and every reading after `j` up to the deactivating step
was at or below the threshold — never earlier. -/
theorem vad_release_only_after_hold (thr : ℚ) (attack_ms hold_ms : Nat)
    (t : Nat → Nat) (e : Nat → ℚ) (b : Bool) :
    (∀ n, thr < e n →
      (runVadN thr attack_ms hold_ms t e (n + 1) ⟨none, none, b⟩).last_above = some (t n)) ∧
    (∀ n, (runVadN thr attack_ms hold_ms t e n ⟨none, none, b⟩).voice_active = true →
      (runVadN thr attack_ms hold_ms t e (n + 1) ⟨none, none, b⟩).voice_active = false →
      ¬ thr < e n ∧ ∃ j, j < n ∧ thr < e j ∧ hold_ms ≤ t n - t j ∧
        ∀ k, j < k → k ≤ n → ¬ thr < e k) := by
  constructor
  · intro n hen
    rw [show runVadN thr attack_ms hold_ms t e (n + 1) ⟨none, none, b⟩
        = vadUpdate thr attack_ms hold_ms (t n) (e n)
            (runVadN thr attack_ms hold_ms t e n ⟨none, none, b⟩) from rfl]
    exact vadUpdate_lastAbove_above hen
  · intro n hact hdeact
    rw [show runVadN thr attack_ms hold_ms t e (n + 1) ⟨none, none, b⟩
        = vadUpdate thr attack_ms hold_ms (t n) (e n)
            (runVadN thr attack_ms hold_ms t e n ⟨none, none, b⟩) from rfl] at hdeact
    have he : ¬ thr < e n := by
      intro he
      rw [vadUpdate_active_above he hact] at hdeact
      cases hdeact
    obtain ⟨last, hla, hh⟩ := vadUpdate_deactivated he hact hdeact
    obtain ⟨j, hj, hje, hjt, hall⟩ :=
      runVadN_lastAbove_inv thr attack_ms hold_ms t e ⟨none, none, b⟩ rfl n last hla
    refine ⟨he, j, hj, hje, ?_, fun k hk1 hk2 => ?_⟩
    · rw [hjt]
      exact hh
    · rcases Nat.lt_or_ge k n with hlt | hge
      · exact hall k hk1 hlt
      · obtain rfl : k = n := by omega
        exact he

/-- Witness for C2 at a concrete run: threshold 2, readings of energy 3 at
ticks 0 and 1 then energy 1, 50 ms apart, hold 350 ms — the machine is
active after 8 readings and inactive after 9 (the deactivating step is
tick 8, 350 ms after the last above-threshold reading at tick 1). -/
theorem vad_release_only_after_hold_witness :
    ¬ (2 : ℚ) < (fun n => if n < 2 then (3 : ℚ) else 1) 8 ∧
    ∃ j, j < 8 ∧ (2 : ℚ) < (fun n => if n < 2 then (3 : ℚ) else 1) j ∧
      350 ≤ (fun n => 50 * n) 8 - (fun n => 50 * n) j ∧
      ∀ k, j < k → k ≤ 8 → ¬ (2 : ℚ) < (fun n => if n < 2 then (3 : ℚ) else 1) k :=
  (vad_release_only_after_hold 2 0 350 (fun n => 50 * n)
    (fun n => if n < 2 then (3 : ℚ) else 1) false).2 8 (by decide) (by decide)

/-! ### C3: the 50 ms-tick scenario -/

/-- Counterexample to C3 as stated: at tick 5 (the sixth reading) only
200 ms — less than the 350 ms hold — have elapsed since the last
above-threshold reading at tick 1, so `voice_active` is still true where
the claim requires it to be false from tick 5 onward. -/
theorem vad_scenario_tick5_cex :
    (runVad (2/100) 0 350 (scenarioTrace.take 6) ⟨none, none, false⟩).voice_active = true := by
  norm_num [runVad, vadUpdate, scenarioTrace]

/-- C3 (amended). With threshold 0.02, attack 0, hold 350 ms and the given
readings, `voice_active` is false at tick 0 (the first above reading only
arms), true from tick 1 through tick 7 — every remaining supplied tick —
since at most 300 ms elapse since the last above-threshold reading
(tick 1, t = 50 ms); deactivation occurs only once 350 ms have elapsed,
at tick 8 (t = 400 ms), as the extension by one more 0.01 reading shows. -/
theorem vad_scenario_amended :
    ((List.range 8).map fun i =>
      (runVad (2/100) 0 350 (scenarioTrace.take (i + 1)) ⟨none, none, false⟩).voice_active)
      = [false, true, true, true, true, true, true, true] ∧
    (runVad (2/100) 0 350 (scenarioTrace ++ [(400, 1/100)]) ⟨none, none, false⟩).voice_active
      = false := by
  constructor
  · norm_num [runVad, vadUpdate, scenarioTrace, List.range_succ]
  · norm_num [runVad, vadUpdate, scenarioTrace]

/-! ### C6: mode switching and VAD reset -/

lemma autoVadStep_inactive_noop (thr : ℚ) (a hm : Nat) (df : ℚ) (tm : Nat) (en : ℚ)
    (g : RestoreGuard) (v : VadState) (hg : g.ducked = false)
    (hv : (vadUpdate thr a hm tm en v).voice_active = false) :
    autoVadStep ControlMode.AutoVad en thr tm v g df a hm
      = (vadUpdate thr a hm tm en v, g, []) := by
  unfold autoVadStep
  rw [if_neg (by simp)]
  simp [hv, hg]

lemma autoVadStep_from_reset (thr : ℚ) (a hm : Nat) (df : ℚ) (tm : Nat) (en : ℚ)
    (g : RestoreGuard) (hg : g.ducked = false) :
    (autoVadStep ControlMode.AutoVad en thr tm ⟨none, none, false⟩ g df a hm).1.voice_active = false ∧
    (autoVadStep ControlMode.AutoVad en thr tm ⟨none, none, false⟩ g df a hm).2.1 = g ∧
    (autoVadStep ControlMode.AutoVad en thr tm ⟨none, none, false⟩ g df a hm).2.2 = [] := by
  have hv := @vadUpdate_reset_inactive thr en a hm tm
  rw [autoVadStep_inactive_noop thr a hm df tm en g _ hg hv]
  exact ⟨hv, rfl, rfl⟩

lemma vadUpdate_reset_below {thr en : ℚ} {a hm tm : Nat} (hen : ¬ thr < en) :
    vadUpdate thr a hm tm en ⟨none, none, false⟩ = ⟨none, none, false⟩ := by
  rw [vadUpdate_below_inactive hen rfl]

lemma runAuto_below_extra (thr : ℚ) (a hm : Nat) (df : ℚ) (g : RestoreGuard)
    (hg : g.ducked = false) (extra : Nat × ℚ) :
    ∀ tr : List (Nat × ℚ), (∀ p ∈ tr, ¬ thr < p.2) →
      (runAuto thr a hm df (tr ++ [extra]) (⟨none, none, false⟩, g)).2.2 = [] ∧
      (runAuto thr a hm df (tr ++ [extra]) (⟨none, none, false⟩, g)).1.voice_active = false ∧
      (runAuto thr a hm df (tr ++ [extra]) (⟨none, none, false⟩, g)).2.1 = g := by
  intro tr
  induction tr with
  | nil =>
    intro _
    obtain ⟨tm, en⟩ := extra
    obtain ⟨h1, h2, h3⟩ := autoVadStep_from_reset thr a hm df tm en g hg
    simp [runAuto, h1, h2, h3]
  | cons p rest ih =>
    intro hall
    obtain ⟨tm, en⟩ := p
    have hen : ¬ thr < en := hall (tm, en) (List.mem_cons_self _ _)
    have hstep : autoVadStep ControlMode.AutoVad en thr tm ⟨none, none, false⟩ g df a hm
        = (⟨none, none, false⟩, g, []) := by
      rw [autoVadStep_inactive_noop thr a hm df tm en g _ hg
        (by rw [vadUpdate_reset_below hen]), vadUpdate_reset_below hen]
    obtain ⟨h1, h2, h3⟩ := ih fun q hq => hall q (List.mem_cons_of_mem _ hq)
    simp [runAuto, hstep, h1, h2, h3]

/-- C6. Pressing space in `AutoVad` mode switches to `ManualRestored` and,
when currently ducked, immediately issues the restore pass — for any VAD
state, in particular with `voice_active = true`. Pressing space in any
other mode switches back to `AutoVad` and resets the hysteresis memory
(`last_above`, `above_start` cleared, `voice_active` false, guard not
ducked); from that reset state, readings at or below the threshold issue
no commands, and even the first above-threshold reading only arms — so no
re-duck happens before a fresh sustained detection. -/
theorem mode_switch_resets_vad (vad : VadState) (g : RestoreGuard) :
    ((spaceKeyPress ControlMode.AutoVad vad g).1 = ControlMode.ManualRestored ∧
      (g.ducked = true →
        (spaceKeyPress ControlMode.AutoVad vad g).2.2.2 = applyFactorCmds g 1 ∧
        (spaceKeyPress ControlMode.AutoVad vad g).2.2.1.ducked = false)) ∧
    (∀ m, m ≠ ControlMode.AutoVad →
      (spaceKeyPress m vad g).1 = ControlMode.AutoVad ∧
      (spaceKeyPress m vad g).2.1 = ⟨none, none, false⟩ ∧
      (spaceKeyPress m vad g).2.2.1.ducked = false) ∧
    (∀ thr : ℚ, ∀ a hm : Nat, ∀ df : ℚ, ∀ g0 : RestoreGuard, g0.ducked = false →
      ∀ tr : List (Nat × ℚ), (∀ p ∈ tr, ¬ thr < p.2) → ∀ extra : Nat × ℚ,
        (runAuto thr a hm df (tr ++ [extra]) (⟨none, none, false⟩, g0)).2.2 = [] ∧
        (runAuto thr a hm df (tr ++ [extra]) (⟨none, none, false⟩, g0)).1.voice_active = false) := by
  refine ⟨⟨?_, fun hd => ?_⟩, fun m hm => ?_, ?_⟩
  · unfold spaceKeyPress
    rw [if_pos rfl]
    cases hd : g.ducked <;> simp
  · unfold spaceKeyPress
    rw [if_pos rfl, if_pos hd]
    exact ⟨rfl, rfl⟩
  · unfold spaceKeyPress
    rw [if_neg hm]
    cases hd : g.ducked <;> simp [RestoreGuard.restore, hd]
  · intro thr a hm df g0 hg tr htr extra
    obtain ⟨h1, h2, h3⟩ := runAuto_below_extra thr a hm df g0 hg extra tr htr
    exact ⟨h1, h2⟩

/-- Witness for C6 at a concrete ducked guard and an active VAD state:
the space key restores immediately and clears the applied flag. -/
theorem mode_switch_resets_vad_witness :
    (spaceKeyPress ControlMode.AutoVad ⟨some 100, none, true⟩
      ⟨[(5, 1)], [5], none, true, false⟩).2.2.2
      = applyFactorCmds ⟨[(5, 1)], [5], none, true, false⟩ 1 ∧
    (spaceKeyPress ControlMode.AutoVad ⟨some 100, none, true⟩
      ⟨[(5, 1)], [5], none, true, false⟩).2.2.1.ducked = false :=
  (mode_switch_resets_vad ⟨some 100, none, true⟩ ⟨[(5, 1)], [5], none, true, false⟩).1.2 rfl

end PwDuck
